import Mathlib

/-!
# AbbeyPynfordCRM — verification of the extracted core logic

Shallow embedding of the pipeline-tracker core found in
`src/app/deals/detail/page.tsx` (stage-gate state machine),
`src/app/dashboard/page.tsx` and `src/unnamed/part_001`
(weighting, deal collapsing, aggregation), together with proofs of the
specification's claims about them.

Conventions used throughout the embedding:
* JavaScript numbers are modelled as exact rationals (`ℚ`); the spec's
  numeric-semantics section prescribes decimal arithmetic.
* A nullable column is an `Option`; a date that the page parses with
  `new Date(...)` is modelled as already parsed calendar data
  (`Ymd`/`JsDate`) — the spec states that parsing free-form input is the
  caller's responsibility, not the core's.  Where the source explicitly
  distinguishes an unparseable date (`Number.isNaN(dt.getTime())`) the
  field is an `Option (Option JsDate)`, `some none` being the `NaN` case.
* Insertion-ordered JavaScript `Map`s are modelled as association lists
  with `mapGet`/`mapSet` mirroring `map.get`/`map.set`.
-/

namespace CRM

/-- JavaScript `String.prototype.startsWith`, as character-list prefix test. -/
def jsStartsWith (s pre : String) : Bool :=
  pre.data.isPrefixOf s.data

/-- JavaScript `String.prototype.toLowerCase` (ASCII, character by
character, which covers every string the pages compare). -/
def jsToLower (s : String) : String :=
  String.mk (s.data.map Char.toLower)

/-- JavaScript `String.prototype.toUpperCase` (ASCII). -/
def jsToUpper (s : String) : String :=
  String.mk (s.data.map Char.toUpper)

/-- JavaScript `String.prototype.trim`: strip whitespace from both ends. -/
def jsTrim (s : String) : String :=
  String.mk (((s.data.dropWhile Char.isWhitespace).reverse.dropWhile
    Char.isWhitespace).reverse)

/-- `map.get(k)` on an insertion-ordered map modelled as an association list. -/
def mapGet {α β : Type} [DecidableEq α] : List (α × β) → α → Option β
  | [], _ => none
  | (k', v') :: rest, k => if k' = k then some v' else mapGet rest k

/-- `map.set(k, v)`: overwrite in place if the key exists, else append
(JavaScript `Map` iterates in key-insertion order). -/
def mapSet {α β : Type} [DecidableEq α] : List (α × β) → α → β → List (α × β)
  | [], k, v => [(k, v)]
  | (k', v') :: rest, k, v =>
      if k' = k then (k, v) :: rest else (k', v') :: mapSet rest k v

/-- Calendar date as the page reads it back from a JavaScript `Date`:
`year` via `getFullYear()`, `month` 1-based (so `getMonth()` is `month - 1`),
`day` via `getDate()`. -/
structure Ymd where
  year : Int
  month : Nat
  day : Nat
deriving DecidableEq, Repr

/-- `Date.prototype.getMonth` (0-based month). -/
def Ymd.getMonth (d : Ymd) : Nat := d.month - 1

/-- `Date.prototype.getFullYear`. -/
def Ymd.getFullYear (d : Ymd) : Int := d.year

/-- A successfully parsed JavaScript `Date`: its calendar fields plus its
epoch-milliseconds value (`getTime()`). -/
structure JsDate where
  ymd : Ymd
  time : Int
deriving DecidableEq, Repr

namespace Dashboard

/-- The `Deal` row as selected by `src/app/dashboard/page.tsx` (and the
identically-shaped type in `src/unnamed/part_001`), restricted to the fields
the modelled functions read.  `tender_value` is the numeric value of the
stored column (`toNumber`'s string branch re-parses the store's decimal
serialisation); `enquiry_date` is `none` for a null/empty column;
`estimated_start_date` keeps the source's explicit unparseable case
(`some none` models an `invalid date` whose `getTime()` is `NaN`). -/
structure Deal where
  id : String
  ap_number : Option Int
  stage : Option String
  probability : Option String
  tender_value : Option ℚ
  enquiry_date : Option JsDate
  estimated_start_date : Option (Option JsDate)
deriving DecidableEq, Repr

/-- `toNumber` of `src/app/dashboard/page.tsx`: null/undefined → 0, else the
numeric value. -/
def toNumber (value : Option ℚ) : ℚ :=
  match value with
  | none => 0
  | some n => n

/-- The `STAGE_PRIORITY` lookup table (keys are lower-cased stage names). -/
def STAGE_PRIORITY (s : String) : Option Nat :=
  if s = "lost" then some 0
  else if s = "no tender" then some 0
  else if s = "received" then some 1
  else if s = "qualified" then some 2
  else if s = "in review" then some 3
  else if s = "quote submitted" then some 4
  else if s = "won" then some 5
  else none

/-- `STAGE_PRIORITY[(stage || "").toLowerCase()] ?? 0`. -/
def stagePriority (stage : Option String) : Nat :=
  match STAGE_PRIORITY (jsToLower (stage.getD "")) with
  | some n => n
  | none => 0

/-- The `PROB_WEIGHTS` lookup table. -/
def PROB_WEIGHTS (p : String) : Option ℚ :=
  if p = "A" then some (3/4)
  else if p = "B" then some (1/2)
  else if p = "C" then some (1/4)
  else if p = "D" then some (1/10)
  else none

/-- `getDealWeight` of `src/app/dashboard/page.tsx` lines 103–112 (identical
in `src/unnamed/part_001` lines 90–99).  The JavaScript truthiness test
`deal.probability && PROB_WEIGHTS[deal.probability]` fails exactly when the
probability is null, the empty string, or has no table entry (all table
entries are nonzero), in which case the result is 0. -/
def getDealWeight (deal : Deal) : ℚ :=
  let stage := jsToLower (deal.stage.getD "")
  if stage = "won" then 1
  else if stage = "lost" ∨ stage = "no tender" then 0
  else
    match deal.probability with
    | none => 0
    | some p =>
        match PROB_WEIGHTS p with
        | some w => w
        | none => 0

/-- `a.enquiry_date ? new Date(a.enquiry_date).getTime() : 0`. -/
def dealTime (d : Deal) : Int :=
  match d.enquiry_date with
  | none => 0
  | some dt => dt.time

/-- `chooseBestDealForAp` of `src/app/dashboard/page.tsx` lines 114–141
(named `chooseBetterDealForForecast` in `src/unnamed/part_001`,
lines 147–171, with identical body). -/
def chooseBestDealForAp (a b : Deal) : Deal :=
  let stageA := stagePriority a.stage
  let stageB := stagePriority b.stage
  if stageA ≠ stageB then (if stageA > stageB then a else b)
  else
    let weightA := getDealWeight a
    let weightB := getDealWeight b
    if weightA ≠ weightB then (if weightA > weightB then a else b)
    else
      let valA := toNumber a.tender_value
      let valB := toNumber b.tender_value
      if valA ≠ valB then (if valA > valB then a else b)
      else
        let dA := dealTime a
        let dB := dealTime b
        if dA ≥ dB then a else b

/-- The grouping key: `` `AP-${d.ap_number}` `` when the AP number is present
(including 0), else `` `ID-${d.id}` ``. -/
def dealKey (d : Deal) : String :=
  match d.ap_number with
  | some n => "AP-" ++ toString n
  | none => "ID-" ++ d.id

/-- One step of the `deals.forEach` loop in `collapseDealsByAp`. -/
def collapseStep (map : List (String × Deal)) (d : Deal) : List (String × Deal) :=
  match mapGet map (dealKey d) with
  | none => mapSet map (dealKey d) d
  | some existing => mapSet map (dealKey d) (chooseBestDealForAp existing d)

/-- `collapseDealsByAp` of `src/app/dashboard/page.tsx` lines 144–162
(identical in `src/unnamed/part_001` lines 173–191):
reduce each AP-number group with `chooseBestDealForAp`, returning
`Array.from(map.values())`. -/
def collapseDealsByAp (deals : List Deal) : List Deal :=
  (deals.foldl collapseStep []).map Prod.snd

end Dashboard

/-- `String(n).padStart(2, "0")` for the month numbers 1–12. -/
def pad2 (n : Nat) : String :=
  (if n < 10 then "0" else "") ++ toString n

namespace Dashboard

/-- The `STAGE_LABELS` canonical-label table (lines 53–61). -/
def STAGE_LABELS (k : String) : Option String :=
  if k = "received" then some "Received"
  else if k = "qualified" then some "Qualified"
  else if k = "in review" then some "In Review"
  else if k = "quote submitted" then some "Quote Submitted"
  else if k = "won" then some "Won"
  else if k = "lost" then some "Lost"
  else if k = "no tender" then some "No Tender"
  else none

/-- `normaliseStage` (lines 74–80). -/
def normaliseStage (stage : Option String) : String :=
  match stage with
  | none => "Unspecified"
  | some s =>
      let raw := jsTrim s
      if raw = "" then "Unspecified"
      else
        match STAGE_LABELS (jsToLower raw) with
        | some l => l
        | none => raw

/-- `getFinancialYearEnd` (lines 210–215): December (`getMonth() === 11`)
belongs to the next calendar year's financial year. -/
def getFinancialYearEnd (date : Ymd) : Int :=
  if date.getMonth = 11 then date.getFullYear + 1 else date.getFullYear

/-- One row of the financial-year tender summary. -/
structure FyTenderRow where
  fyEndYear : Int
  tenders : Nat
  quotesSubmitted : Nat
  wonCount : Nat
  totalTenderValue : ℚ
  wonTenderValue : ℚ
deriving DecidableEq, Repr

/-- One step of the `deals.forEach` loop in `fyTenderSummary`
(lines 461–503).  A deal with a null enquiry date is skipped (the page's
`Number.isNaN` guard never fires here because stored dates are parseable). -/
def fyStep (map : List (Int × FyTenderRow)) (d : Deal) : List (Int × FyTenderRow) :=
  match d.enquiry_date with
  | none => map
  | some dt =>
      let fyEnd := getFinancialYearEnd dt.ymd
      let row := (mapGet map fyEnd).getD
        { fyEndYear := fyEnd, tenders := 0, quotesSubmitted := 0, wonCount := 0,
          totalTenderValue := 0, wonTenderValue := 0 }
      let row := { row with tenders := row.tenders + 1 }
      let stageName := normaliseStage d.stage
      let value := toNumber d.tender_value
      let row :=
        if stageName = "Quote Submitted" then
          { row with quotesSubmitted := row.quotesSubmitted + 1 }
        else row
      let row :=
        if stageName = "Won" then
          { row with wonCount := row.wonCount + 1,
                     wonTenderValue := row.wonTenderValue + value }
        else row
      let row := { row with totalTenderValue := row.totalTenderValue + value }
      mapSet map fyEnd row

/-- Ascending insertion into a list sorted by `fyEndYear` (the concluding
`sort((a, b) => a.fyEndYear - b.fyEndYear)`). -/
def insertFyRow (r : FyTenderRow) : List FyTenderRow → List FyTenderRow
  | [] => [r]
  | h :: t => if r.fyEndYear < h.fyEndYear then r :: h :: t else h :: insertFyRow r t

/-- `fyTenderSummary` (lines 461–503), over the raw uncollapsed deal list. -/
def fyTenderSummary (deals : List Deal) : List FyTenderRow :=
  ((deals.foldl fyStep []).map Prod.snd).foldr insertFyRow []

/-- The month key `` `${year}-${String(month).padStart(2, "0")}` ``. -/
def monthKeyOf (dt : Ymd) : String :=
  toString dt.getFullYear ++ "-" ++ pad2 (dt.getMonth + 1)

/-- The month label `` `${String(month).padStart(2, "0")}/${year}` ``. -/
def monthLabelOf (dt : Ymd) : String :=
  pad2 (dt.getMonth + 1) ++ "/" ++ toString dt.getFullYear

/-- One bar of the dashboard's pipeline-by-estimated-start chart. -/
structure PipelineBucket where
  monthKey : String
  label : String
  wonValue : ℚ
  probAValue : ℚ
  probBValue : ℚ
deriving DecidableEq, Repr

/-- One step of the `collapsedDeals.forEach` loop in `pipelineBuckets`
(`src/app/dashboard/page.tsx` lines 659–708): skip deals with an absent
(`none`) or unparseable (`some none`) estimated start date and deals whose
stage is Lost / No Tender, then accumulate the tender value into the
bucket's won / probability-A / probability-B series. -/
def pipelineStep (map : List (String × PipelineBucket)) (d : Deal) :
    List (String × PipelineBucket) :=
  match d.estimated_start_date with
  | none => map
  | some none => map
  | some (some dt) =>
      let stage := jsToLower (d.stage.getD "")
      if stage = "lost" ∨ stage = "no tender" then map
      else
        let mk := monthKeyOf dt.ymd
        let existing := (mapGet map mk).getD
          { monthKey := mk, label := monthLabelOf dt.ymd,
            wonValue := 0, probAValue := 0, probBValue := 0 }
        let val := toNumber d.tender_value
        let prob := jsToUpper (d.probability.getD "")
        let existing :=
          if stage = "won" then { existing with wonValue := existing.wonValue + val }
          else
            let e1 :=
              if prob = "A" then { existing with probAValue := existing.probAValue + val }
              else existing
            if prob = "B" then { e1 with probBValue := e1.probBValue + val } else e1
        mapSet map mk existing

/-- Ascending insertion by `monthKey` (the concluding
`sort((a, b) => a.monthKey.localeCompare(b.monthKey))`). -/
def insertPipelineBucket (b : PipelineBucket) :
    List PipelineBucket → List PipelineBucket
  | [] => [b]
  | h :: t =>
      if b.monthKey < h.monthKey then b :: h :: t else h :: insertPipelineBucket b t

/-- `pipelineBuckets` (lines 659–708) as a function of the collapsed deal
list it iterates over. -/
def pipelineBuckets (collapsed : List Deal) : List PipelineBucket :=
  ((collapsed.foldl pipelineStep []).map Prod.snd).foldr insertPipelineBucket []

/-- `isDateInMonthRange` of `src/unnamed/part_001` (lines 119–134), with the
two `YYYY-MM` bounds already run through `monthIndexFromYyyyMm`
(`none` = empty or unparseable bound, hence no constraint). -/
def isDateInMonthRange (dt : Ymd) (fromIdx toIdx : Option Int) : Bool :=
  if fromIdx = none ∧ toIdx = none then true
  else
    let idx : Int := dt.getFullYear * 12 + (dt.getMonth : Int)
    match fromIdx with
    | some f =>
        if idx < f then false
        else
          match toIdx with
          | some t => if idx > t then false else true
          | none => true
    | none =>
        match toIdx with
        | some t => if idx > t then false else true
        | none => true

/-- One row of the forecast chart of `src/unnamed/part_001`. -/
structure ForecastBucket where
  total : ℚ
  expected : ℚ
  won : ℚ
  target : ℚ
deriving DecidableEq, Repr

/-- One step of the `collapsed.forEach` loop in the forecast-buckets memo of
`src/unnamed/part_001` (lines 398–440): skip absent/unparseable start dates,
out-of-range months, Lost / No Tender deals, and (optionally) Won deals
already started; then accumulate total, expected (`value × weight`) and won
sums for the start month. -/
def forecastStep (fromIdx toIdx : Option Int) (excludeStartedWon : Bool)
    (today : Int) (targets : String → ℚ)
    (map : List (String × ForecastBucket)) (d : Deal) :
    List (String × ForecastBucket) :=
  match d.estimated_start_date with
  | none => map
  | some none => map
  | some (some dt) =>
      if ¬ isDateInMonthRange dt.ymd fromIdx toIdx then map
      else
        let stage := jsToLower (d.stage.getD "")
        if stage = "lost" ∨ stage = "no tender" then map
        else if stage = "won" ∧ excludeStartedWon = true ∧ dt.time < today then map
        else
          let mk := monthKeyOf dt.ymd
          let current := (mapGet map mk).getD
            { total := 0, expected := 0, won := 0, target := targets mk }
          let val := toNumber d.tender_value
          let weight := getDealWeight d
          let current := { current with
            total := current.total + val,
            expected := current.expected + val * weight }
          let current :=
            if stage = "won" then { current with won := current.won + val } else current
          let current := { current with target := targets mk }
          mapSet map mk current

/-- Ascending insertion by month key for the forecast rows. -/
def insertForecastRow (p : String × ForecastBucket) :
    List (String × ForecastBucket) → List (String × ForecastBucket)
  | [] => [p]
  | h :: t => if p.1 < h.1 then p :: h :: t else h :: insertForecastRow p t

/-- The forecast-buckets computation of `src/unnamed/part_001`
(lines 385–448) as a function of the collapsed deal list and the ambient
filter state (month range, exclude-started-won flag, today's time, and the
`MONTHLY_TARGETS[k] || 0` lookup). -/
def forecastBuckets (fromIdx toIdx : Option Int) (excludeStartedWon : Bool)
    (today : Int) (targets : String → ℚ) (collapsed : List Deal) :
    List (String × ForecastBucket) :=
  (collapsed.foldl (forecastStep fromIdx toIdx excludeStartedWon today targets) []).foldr
    insertForecastRow []

end Dashboard

namespace StageGate

/-- The seven stage values of the `STAGES` constant in
`src/app/deals/detail/page.tsx` lines 76–84.  The page normalises any
off-list stored value to `Received` on load, so the state machine only ever
sees these seven. -/
inductive Stage where
  | received
  | qualified
  | inReview
  | quoteSubmitted
  | won
  | lost
  | noTender
deriving DecidableEq, Repr

/-- The stage's display string, as stored in the `stage` column. -/
def Stage.label : Stage → String
  | .received => "Received"
  | .qualified => "Qualified"
  | .inReview => "In Review"
  | .quoteSubmitted => "Quote Submitted"
  | .won => "Won"
  | .lost => "Lost"
  | .noTender => "No Tender"

/-- The deal as the detail page holds it (`lead`), restricted to the fields
the stage-gate logic reads or writes. -/
structure Deal where
  id : String
  stage : Stage
  probability : Option String
  tender_value : Option ℚ
  tender_cost : Option ℚ
  tender_margin : Option ℚ
  tender_margin_percent : Option ℚ
  tender_return_date : Option String
  estimated_start_date : Option String
deriving DecidableEq, Repr

/-- A `deal_actions` row as the page inserts and reads it. -/
structure DealAction where
  action_type : Option String
  notes : String
deriving DecidableEq, Repr

/-- `getQuoteSubmissionCount` (lines 308–311): the number of loaded actions
whose `action_type` starts with `"Stage gate: Quote Submitted"` (a null
`action_type` is falsy under `?.startsWith`). -/
def getQuoteSubmissionCount (actions : List DealAction) : Nat :=
  (actions.filter (fun a =>
    match a.action_type with
    | some t => jsStartsWith t "Stage gate: Quote Submitted"
    | none => false)).length

/-- The `gateAnswers` record: every question key any of the three gates
uses, each an untrimmed free-form string as typed into the modal. -/
structure GateAnswers where
  scope_works : String := ""
  est_start_month : String := ""
  qualified_tender_return_date : String := ""
  scheme_size : String := ""
  multi_basis : String := ""
  multi_plot_numbers : String := ""
  multi_extra_over_offered : String := ""
  multi_extra_over_client_agreed : String := ""
  arch_housetype : String := ""
  arch_siteplans : String := ""
  civils_levels : String := ""
  civils_drainage : String := ""
  si_depth : String := ""
  drawings_in_sharepoint : String := ""
  sharepoint_link : String := ""
  quote_reference : String := ""
  quote_date : String := ""
  quote_submission_link : String := ""
  quote_drawings_link : String := ""
  tender_value : String := ""
  tender_cost : String := ""
  tender_margin : String := ""
  tender_margin_percent : String := ""
  key_material_rates : String := ""
  overall_duration : String := ""
  phases_priced : String := ""
deriving DecidableEq, Repr

/-- The `ans` helper (line 306): `(gateAnswers[key] || "").trim()` applied
to an answer field. -/
def ans (s : String) : String := jsTrim s

/-- Digit run to a natural number. -/
def digitsVal (ds : List Char) : Nat :=
  ds.foldl (fun acc c => acc * 10 + (c.toNat - '0'.toNat)) 0

/-- Model of the JavaScript `parseFloat` builtin used at line 828, restricted
to plain decimal literals (optional sign, digits, optional fraction) —
the shape of the gate modal's numeric inputs.  `none` models `NaN`. -/
def parseFloat (s : String) : Option ℚ :=
  let cs := s.data.dropWhile Char.isWhitespace
  let signAndRest : ℚ × List Char :=
    match cs with
    | '-' :: rest => (-1, rest)
    | '+' :: rest => (1, rest)
    | _ => (1, cs)
  let ds := signAndRest.2.takeWhile Char.isDigit
  let rest := signAndRest.2.dropWhile Char.isDigit
  let fs :=
    match rest with
    | '.' :: r => r.takeWhile Char.isDigit
    | _ => []
  if ds.isEmpty ∧ fs.isEmpty then none
  else some (signAndRest.1 * ((digitsVal ds : ℚ) + (digitsVal fs : ℚ) / ((10 : ℚ) ^ fs.length)))

/-- Left-pad with `'0'` to the given width. -/
def padZero (s : String) (width : Nat) : String :=
  String.mk (List.replicate (width - s.length) '0') ++ s

/-- Model of `Number.prototype.toFixed` for exact decimal inputs: round the
scaled value half away from zero and print with exactly `digits` decimals. -/
def toFixed (digits : Nat) (q : ℚ) : String :=
  let neg := q < 0
  let scaled : ℚ := |q| * ((10 : ℚ) ^ digits)
  let r : Int := ⌊scaled + 1/2⌋
  let ip := r / ((10 : Int) ^ digits)
  let fp := r % ((10 : Int) ^ digits)
  (if neg then "-" else "") ++ toString ip ++
    (if digits = 0 then "" else "." ++ padZero (toString fp.toNat) digits)

/-- `areAllQualifiedGateQuestionsComplete` (lines 513–527); `ans` trims each
answer and tests truthiness (empty string is falsy). -/
def areAllQualifiedGateQuestionsComplete (g : GateAnswers) : Bool :=
  if ans g.scope_works = "" then false
  else if ans g.est_start_month = "" then false
  else if ans g.qualified_tender_return_date = "" then false
  else if ans g.scheme_size = "" then false
  else if ans g.scheme_size = "Multiple Plots" then
    if ans g.multi_basis = "" then false
    else if ans g.multi_basis = "Individual Plots" ∧ ans g.multi_plot_numbers = "" then false
    else if ans g.multi_extra_over_offered = "" then false
    else if ans g.multi_extra_over_client_agreed = "" then false
    else true
  else true

/-- `areAllInReviewGateQuestionsComplete` (lines 529–537). -/
def areAllInReviewGateQuestionsComplete (g : GateAnswers) : Bool :=
  if ans g.arch_housetype = "" then false
  else if ans g.arch_siteplans = "" then false
  else if ans g.civils_levels = "" then false
  else if ans g.civils_drainage = "" then false
  else if ans g.si_depth = "" then false
  else if ans g.drawings_in_sharepoint = "" then false
  else true

/-- `areAllQuoteSubmittedGateQuestionsComplete` (lines 539–553). -/
def areAllQuoteSubmittedGateQuestionsComplete (g : GateAnswers) : Bool :=
  if ans g.quote_reference = "" then false
  else if ans g.quote_date = "" then false
  else if ans g.quote_submission_link = "" then false
  else if ans g.quote_drawings_link = "" then false
  else if ans g.tender_value = "" then false
  else if ans g.tender_cost = "" then false
  else if ans g.tender_margin = "" then false
  else if ans g.tender_margin_percent = "" then false
  else if ans g.key_material_rates = "" then false
  else if ans g.overall_duration = "" then false
  else if ans g.phases_priced = "" then false
  else true

/-- The automatic audit entry `updateLeadField` inserts on a committed stage
write (lines 467–476). -/
def stageChangedAction (oldStage newStage : Stage) : DealAction :=
  { action_type := some "Stage changed",
    notes := "Stage changed from " ++ oldStage.label ++ " to " ++ newStage.label }

/-- The Received → Qualified gate summary (lines 713–733). -/
def qualifiedDetails (g : GateAnswers) : String :=
  let base :=
    ["Stage gate: Received → Qualified",
     "",
     "General scope of works: " ++ ans g.scope_works,
     "Estimated start (month/year): " ++ ans g.est_start_month,
     "Tender return date (at qualification): " ++ ans g.qualified_tender_return_date,
     "Scheme size: " ++ ans g.scheme_size]
  let extra :=
    if ans g.scheme_size = "Multiple Plots" then
      ["Pricing basis: " ++ ans g.multi_basis] ++
      (if ans g.multi_basis = "Individual Plots" then
        ["Plots requiring pricing: " ++ ans g.multi_plot_numbers]
      else []) ++
      ["Extra-over for whole site allowed: " ++ ans g.multi_extra_over_offered,
       "Client agreed to extra-over: " ++ ans g.multi_extra_over_client_agreed]
    else []
  String.intercalate "\n" (base ++ extra)

/-- The Qualified → In Review gate summary (lines 768–794). -/
def inReviewDetails (g : GateAnswers) : String :=
  let recvd := fun (s : String) => if jsTrim s = "Yes" then "Received" else "Not received"
  let base :=
    ["Stage gate: Qualified → In Review",
     "",
     "Drawings received:",
     "Architect – Housetypes: " ++ recvd g.arch_housetype,
     "Architect – Site plans: " ++ recvd g.arch_siteplans,
     "Civils – External level layouts: " ++ recvd g.civils_levels,
     "Civils – Drainage layouts: " ++ recvd g.civils_drainage,
     "",
     "Site investigation depth contained in tender info (m): " ++ ans g.si_depth,
     "",
     "All drawings placed in SharePoint & labelled as date received: " ++
       ans g.drawings_in_sharepoint]
  let extra :=
    if ans g.sharepoint_link = "" then []
    else ["SharePoint location: " ++ ans g.sharepoint_link]
  String.intercalate "\n" (base ++ extra)

/-- The In Review → Quote Submitted gate summary (lines 843–862). -/
def quoteDetails (g : GateAnswers) (v c margin pct : ℚ) (version : Nat) : String :=
  String.intercalate "\n"
    ["Stage Gate: In Review → Quote Submitted (v" ++ toString version ++ ")",
     "",
     "Quote Reference: " ++ ans g.quote_reference,
     "Date of Quote: " ++ ans g.quote_date,
     "Quotation Submission Link: " ++ ans g.quote_submission_link,
     "Quotation Drawings Link: " ++ ans g.quote_drawings_link,
     "",
     "Tender Value £: " ++ toFixed 2 v,
     "Tender Cost £: " ++ toFixed 2 c,
     "Tender Margin £: " ++ toFixed 2 margin,
     "Tender Margin %: " ++ toFixed 1 pct ++ "%",
     "",
     "Procurement key material rates received: " ++ ans g.key_material_rates,
     "",
     "Overall Duration of Works: " ++ ans g.overall_duration,
     "Phases Priced: " ++ ans g.phases_priced]

/-- Why a requested transition did not commit.  `sameStage` is the silent
early return `if (stage === currentStage) return`; the others surface the
corresponding `setError` message (or, for `gateIncomplete`, the disabled
confirm button / the confirm handler's completeness re-check). -/
inductive RejectReason where
  | sameStage
  | noTenderLocked
  | receivedLocked
  | tenderIncomplete
  | gateIncomplete
  | invalidQuoteNumbers
deriving DecidableEq, Repr

/-- Outcome of a stage-transition request: either no state change, or the
new deal together with the new action list (new audit entries prepended,
as `setActions((prev) => [entry, ...prev])` does). -/
inductive TransitionResult where
  | rejected (e : RejectReason)
  | committed (deal : Deal) (actions : List DealAction)
deriving DecidableEq, Repr

/-- The ungated commit path: clearing probability (for Won/Lost/No Tender)
then `updateLeadField("stage", …)`, which logs a `Stage changed` action. -/
def commitUngated (d : Deal) (acts : List DealAction) (t : Stage) :
    Deal × List DealAction :=
  ({ d with probability := none, stage := t },
    stageChangedAction d.stage t :: acts)

/-- `handleConfirmStageChangeToQualified` (lines 697–756): overwrite
`tender_return_date` and `estimated_start_date` (as `YYYY-MM-01`) from the
answers when supplied, insert the gate action, then commit the stage. -/
def commitQualified (d : Deal) (acts : List DealAction) (g : GateAnswers) :
    Deal × List DealAction :=
  let d1 := { d with
    tender_return_date :=
      if ans g.qualified_tender_return_date = "" then d.tender_return_date
      else some (ans g.qualified_tender_return_date),
    estimated_start_date :=
      if ans g.est_start_month = "" then d.estimated_start_date
      else some (ans g.est_start_month ++ "-01") }
  let gateAct : DealAction :=
    { action_type := some "Stage gate: Qualified", notes := qualifiedDetails g }
  ({ d1 with stage := .qualified },
    stageChangedAction d.stage .qualified :: gateAct :: acts)

/-- `handleConfirmStageChangeToInReview` (lines 761–817). -/
def commitInReview (d : Deal) (acts : List DealAction) (g : GateAnswers) :
    Deal × List DealAction :=
  let gateAct : DealAction :=
    { action_type := some "Stage gate: In Review", notes := inReviewDetails g }
  ({ d with stage := .inReview },
    stageChangedAction d.stage .inReview :: gateAct :: acts)

/-- The versioned audit entry inserted by
`handleConfirmStageChangeToQuoteSubmitted` (lines 864–873): its action label
carries `v(N+1)` where `N` is the number of existing quote-gate entries. -/
def quoteGateAction (acts : List DealAction) (g : GateAnswers) (v c : ℚ) :
    DealAction :=
  let tenderMargin := v - c
  let tenderMarginPercent := tenderMargin / v * 100
  let quoteVersion := getQuoteSubmissionCount acts + 1
  { action_type :=
      some ("Stage gate: Quote Submitted (v" ++ toString quoteVersion ++ ")"),
    notes := quoteDetails g v c tenderMargin tenderMarginPercent quoteVersion }

/-- The successful tail of `handleConfirmStageChangeToQuoteSubmitted`
(lines 836–923): recompute margin and margin-percent from the parsed value
and cost, insert the versioned gate action, overwrite the deal's four
financial fields, then commit the stage. -/
def commitQuoteSubmitted (d : Deal) (acts : List DealAction) (g : GateAnswers)
    (v c : ℚ) : Deal × List DealAction :=
  let tenderMargin := v - c
  let tenderMarginPercent := tenderMargin / v * 100
  let gateAct : DealAction := quoteGateAction acts g v c
  ({ d with
      tender_value := some v,
      tender_cost := some c,
      tender_margin := some tenderMargin,
      tender_margin_percent := some tenderMarginPercent,
      stage := .quoteSubmitted },
    stageChangedAction d.stage .quoteSubmitted :: gateAct :: acts)

/-- Any of the four financial fields null (the Won/Lost guard, lines 609–621). -/
def tenderSummaryIncomplete (d : Deal) : Prop :=
  d.tender_value = none ∨ d.tender_cost = none ∨
  d.tender_margin = none ∨ d.tender_margin_percent = none

instance (d : Deal) : Decidable (tenderSummaryIncomplete d) := by
  unfold tenderSummaryIncomplete; infer_instance

/-- The end-to-end stage-transition request: `handleStageClick`
(lines 579–692) composed with the matching confirm handler for the gated
targets.  Mirrors the source's guard order: self-transition no-op,
`No Tender` lock, move-to-`No Tender`, `Received` re-entry block, the
Won/Lost financials guard, then the three gates. -/
def requestTransition (d : Deal) (acts : List DealAction) (target : Stage)
    (g : GateAnswers) : TransitionResult :=
  if target = d.stage then .rejected .sameStage
  else if d.stage = .noTender then .rejected .noTenderLocked
  else
    match target with
    | .noTender =>
        let r := commitUngated d acts .noTender
        .committed r.1 r.2
    | .received => .rejected .receivedLocked
    | .won =>
        if tenderSummaryIncomplete d then .rejected .tenderIncomplete
        else
          let r := commitUngated d acts .won
          .committed r.1 r.2
    | .lost =>
        if tenderSummaryIncomplete d then .rejected .tenderIncomplete
        else
          let r := commitUngated d acts .lost
          .committed r.1 r.2
    | .qualified =>
        if areAllQualifiedGateQuestionsComplete g then
          let r := commitQualified d acts g
          .committed r.1 r.2
        else .rejected .gateIncomplete
    | .inReview =>
        if areAllInReviewGateQuestionsComplete g then
          let r := commitInReview d acts g
          .committed r.1 r.2
        else .rejected .gateIncomplete
    | .quoteSubmitted =>
        if areAllQuoteSubmittedGateQuestionsComplete g then
          match parseFloat (ans g.tender_value), parseFloat (ans g.tender_cost) with
          | some v, some c =>
              if v = 0 then .rejected .invalidQuoteNumbers
              else
                let r := commitQuoteSubmitted d acts g v c
                .committed r.1 r.2
          | some _, none => .rejected .invalidQuoteNumbers
          | none, _ => .rejected .invalidQuoteNumbers
        else .rejected .gateIncomplete

/-- The transition relation exactly as the specification's state-machine
paragraph words it (modelled from the spec, for comparison with
`requestTransition`): the forward path, any non-terminal stage to
`No Tender`, and the `Quote Submitted → In Review` re-quote. -/
def specAllowedPair (s t : Stage) : Bool :=
  decide <|
  (s = .received ∧ t = .qualified) ∨
  (s = .qualified ∧ t = .inReview) ∨
  (s = .inReview ∧ t = .quoteSubmitted) ∨
  (s = .quoteSubmitted ∧ t = .won) ∨
  (s = .quoteSubmitted ∧ t = .lost) ∨
  (s = .quoteSubmitted ∧ t = .inReview) ∨
  (s ≠ .noTender ∧ t = .noTender)

/-- Did the request change state? -/
def TransitionResult.isCommitted : TransitionResult → Bool
  | .committed _ _ => true
  | .rejected _ => false

/-- Was the request turned away (leaving the deal unchanged)? -/
def TransitionResult.isRejected : TransitionResult → Bool
  | .committed _ _ => false
  | .rejected _ => true

/-- The quoting gate's numeric guard holds: both answers parse and the
value is nonzero (the negation of line 831's rejection condition). -/
def validQuoteNumbers (g : GateAnswers) : Prop :=
  match parseFloat (ans g.tender_value), parseFloat (ans g.tender_cost) with
  | some v, some _ => v ≠ 0
  | _, _ => False

instance (g : GateAnswers) : Decidable (validQuoteNumbers g) := by
  unfold validQuoteNumbers
  rcases parseFloat (ans g.tender_value) with _ | v <;>
    rcases parseFloat (ans g.tender_cost) with _ | c <;> simp <;> infer_instance

/-- The exact condition under which `requestTransition` commits: the target
differs from the current stage, the current stage is not `No Tender`, and
the per-target guard holds.  Note that no forward-path adjacency appears
here — the source never compares the target against the stage *order*. -/
def commitPrecondition (d : Deal) (target : Stage) (g : GateAnswers) : Prop :=
  target ≠ d.stage ∧ d.stage ≠ .noTender ∧
  (target = .noTender ∨
   ((target = .won ∨ target = .lost) ∧ ¬ tenderSummaryIncomplete d) ∨
   (target = .qualified ∧ areAllQualifiedGateQuestionsComplete g = true) ∨
   (target = .inReview ∧ areAllInReviewGateQuestionsComplete g = true) ∨
   (target = .quoteSubmitted ∧ areAllQuoteSubmittedGateQuestionsComplete g = true ∧
     validQuoteNumbers g))

/-- A deal sitting at `Won` with a completed tender summary. -/
def exampleWonDeal : Deal :=
  { id := "deal-1", stage := .won, probability := none,
    tender_value := some 100, tender_cost := some 40, tender_margin := some 60,
    tender_margin_percent := some 60, tender_return_date := none,
    estimated_start_date := none }

/-- A deal locked at `No Tender`. -/
def exampleNoTenderDeal : Deal :=
  { exampleWonDeal with id := "deal-2", stage := .noTender }

/-- A freshly received deal with empty financials. -/
def exampleReceivedDeal : Deal :=
  { id := "deal-3", stage := .received, probability := some "B",
    tender_value := none, tender_cost := none, tender_margin := none,
    tender_margin_percent := none, tender_return_date := none,
    estimated_start_date := none }

/-- A deal sitting at `In Review` with empty financials. -/
def exampleInReviewDeal : Deal :=
  { exampleReceivedDeal with id := "deal-4", stage := .inReview }

/-- A complete quoting-gate answer set (value 100, cost 40). -/
def exampleQuoteAnswers : GateAnswers :=
  { quote_reference := "Q-001", quote_date := "2025-01-10",
    quote_submission_link := "link-a", quote_drawings_link := "link-b",
    tender_value := "100", tender_cost := "40", tender_margin := "60",
    tender_margin_percent := "60.0", key_material_rates := "Yes",
    overall_duration := "10 weeks", phases_priced := "All phases" }

end StageGate

namespace Dashboard

/-- The claim's tie-break cascade: `b` strictly beats `a` when `b` wins on
the first of stage rank, forecast weight, tender value (null as 0), and
enquiry recency that differs. -/
def strictlyBetter (b a : Deal) : Prop :=
  stagePriority a.stage < stagePriority b.stage ∨
  (stagePriority a.stage = stagePriority b.stage ∧
    (getDealWeight a < getDealWeight b ∨
     (getDealWeight a = getDealWeight b ∧
       (toNumber a.tender_value < toNumber b.tender_value ∨
        (toNumber a.tender_value = toNumber b.tender_value ∧
          dealTime a < dealTime b)))))

instance (b a : Deal) : Decidable (strictlyBetter b a) := by
  unfold strictlyBetter; infer_instance

/-- The lexicographic comparison key implicit in `chooseBestDealForAp`. -/
def rank (d : Deal) : Lex (Nat × Lex (ℚ × Lex (ℚ × Int))) :=
  toLex (stagePriority d.stage,
    toLex (getDealWeight d, toLex (toNumber d.tender_value, dealTime d)))

/-- The keys of an insertion-ordered map. -/
def keysOf {α β : Type} (m : List (α × β)) : List α := m.map Prod.fst

/-- The group of deals in `l` sharing the project key `k`, in input order. -/
def groupOf (l : List Deal) (k : String) : List Deal :=
  l.filter (fun d => dealKey d == k)

/-- Reduce one project-key group with `chooseBestDealForAp`, left to right
(`none` for the empty group). -/
def reduceGroup : List Deal → Option Deal
  | [] => none
  | h :: t => some (t.foldl chooseBestDealForAp h)

/-- Two dashboard deals that share an AP number and tie on all four
comparison criteria, but are distinct rows. -/
def exampleDealA : Deal :=
  { id := "row-a", ap_number := some 7, stage := some "Received",
    probability := none, tender_value := none, enquiry_date := none,
    estimated_start_date := none }

/-- See `exampleDealA`. -/
def exampleDealB : Deal :=
  { exampleDealA with id := "row-b" }

/-- A raw deal enquired 2024-12-15 (epoch time arbitrary). -/
def exampleFyDealDec2024 : Deal :=
  { id := "fy-1", ap_number := none, stage := some "Received",
    probability := none, tender_value := none,
    enquiry_date := some ⟨⟨2024, 12, 15⟩, 1734220800000⟩,
    estimated_start_date := none }

/-- A raw deal enquired 2025-11-30. -/
def exampleFyDealNov2025 : Deal :=
  { id := "fy-2", ap_number := none, stage := some "Received",
    probability := none, tender_value := none,
    enquiry_date := some ⟨⟨2025, 11, 30⟩, 1764460800000⟩,
    estimated_start_date := none }

/-- A raw deal enquired 2025-12-01. -/
def exampleFyDealDec2025 : Deal :=
  { id := "fy-3", ap_number := none, stage := some "Received",
    probability := none, tender_value := none,
    enquiry_date := some ⟨⟨2025, 12, 1⟩, 1764547200000⟩,
    estimated_start_date := none }

/-- A Lost deal with an estimated start date, used to witness that the
forecast skips it. -/
def exampleLostDeal : Deal :=
  { id := "row-lost", ap_number := some 9, stage := some "Lost",
    probability := some "A", tender_value := some 500,
    enquiry_date := none,
    estimated_start_date := some (some ⟨⟨2025, 3, 1⟩, 1740787200000⟩) }

/-- An active deal with an estimated start date. -/
def exampleActiveDeal : Deal :=
  { id := "row-act", ap_number := some 10, stage := some "Qualified",
    probability := some "A", tender_value := some 200,
    enquiry_date := none,
    estimated_start_date := some (some ⟨⟨2025, 3, 5⟩, 1741132800000⟩) }

end Dashboard

/-! ## Theorems -/

section StageGateClaims

open StageGate

/-- **C2.** For every deal whose current stage is `No Tender` and every
target stage other than `No Tender`, the transition request is rejected
with the `No Tender` lock error and the deal is left unchanged:
`No Tender` is absorbing. -/
theorem claim_C2_no_tender_absorbing :
    ∀ (d : Deal) (acts : List DealAction) (t : Stage) (g : GateAnswers),
      d.stage = Stage.noTender → t ≠ Stage.noTender →
      requestTransition d acts t g = .rejected .noTenderLocked := by
  intro d acts t g hd ht
  unfold requestTransition
  rw [hd, if_neg ht, if_pos rfl]

/-- Witness for C2: a `No Tender` deal refuses a move to `Won`. -/
theorem claim_C2_witness :
    requestTransition exampleNoTenderDeal [] Stage.won {} =
      .rejected .noTenderLocked :=
  claim_C2_no_tender_absorbing exampleNoTenderDeal [] Stage.won {} rfl (by decide)

/-- **C3.** A transition request to `Won` or `Lost` is rejected (with no
state change) whenever any of the deal's four financial fields is null;
when all four are non-null, the request is never rejected for incomplete
financials. -/
theorem claim_C3_won_lost_requires_financials :
    ∀ (d : Deal) (acts : List DealAction) (t : Stage) (g : GateAnswers),
      (t = Stage.won ∨ t = Stage.lost) →
      (tenderSummaryIncomplete d →
        (requestTransition d acts t g).isRejected = true) ∧
      (¬ tenderSummaryIncomplete d →
        requestTransition d acts t g ≠ .rejected .tenderIncomplete) := by
  intro d acts t g ht
  constructor
  · intro hinc
    rcases ht with rfl | rfl <;>
      · unfold requestTransition
        split_ifs <;> simp_all [TransitionResult.isRejected]
  · intro hcomp
    rcases ht with rfl | rfl <;>
      · unfold requestTransition
        split_ifs <;> simp_all

/-- Witness for C3: a freshly received deal with empty financials cannot be
marked `Won`. -/
theorem claim_C3_witness :
    (requestTransition exampleReceivedDeal [] Stage.won {}).isRejected = true :=
  (claim_C3_won_lost_requires_financials exampleReceivedDeal [] Stage.won {}
    (Or.inl rfl)).1 (by decide)

/-- **C1 (amended).** `requestTransition` commits exactly when the target
differs from the current stage, the current stage is not `No Tender`, and
the per-target guard holds (`No Tender` always; `Won`/`Lost` with complete
financials; the three gated stages with complete answers, plus valid
numbers for `Quote Submitted`).  No forward-path adjacency is enforced:
the claimed transition relation is not what the code implements. -/
theorem claim_C1_commit_characterisation :
    ∀ (d : Deal) (acts : List DealAction) (t : Stage) (g : GateAnswers),
      (requestTransition d acts t g).isCommitted = true ↔
        commitPrecondition d t g := by
  intro d acts t g
  cases t
  case received =>
    unfold requestTransition commitPrecondition
    split_ifs <;> simp_all [TransitionResult.isCommitted]
  case qualified =>
    unfold requestTransition commitPrecondition
    split_ifs <;> simp_all [TransitionResult.isCommitted]
  case inReview =>
    unfold requestTransition commitPrecondition
    split_ifs <;> simp_all [TransitionResult.isCommitted]
  case won =>
    unfold requestTransition commitPrecondition
    split_ifs <;> simp_all [TransitionResult.isCommitted]
  case lost =>
    unfold requestTransition commitPrecondition
    split_ifs <;> simp_all [TransitionResult.isCommitted]
  case noTender =>
    unfold requestTransition commitPrecondition
    split_ifs <;> simp_all [TransitionResult.isCommitted]
  case quoteSubmitted =>
    unfold requestTransition commitPrecondition validQuoteNumbers
    rcases hv : parseFloat (ans g.tender_value) with _ | v <;>
      rcases hc : parseFloat (ans g.tender_cost) with _ | c <;>
        simp only [hv, hc] <;> split_ifs <;>
          simp_all [TransitionResult.isCommitted]

/-- Witness for C1 as amended, at a concrete commit. -/
theorem claim_C1_witness :
    (requestTransition exampleWonDeal [] Stage.lost {}).isCommitted = true ↔
      commitPrecondition exampleWonDeal Stage.lost {} :=
  claim_C1_commit_characterisation exampleWonDeal [] Stage.lost {}

/-- **C1 counterexample.** The pair `(Won, Lost)` is outside the claimed
transition relation, yet the code commits it: a `Won` deal with complete
financials moves to `Lost` (with its probability cleared and a
`Stage changed` action logged). -/
theorem claim_C1_counterexample :
    specAllowedPair Stage.won Stage.lost = false ∧
    requestTransition exampleWonDeal [] Stage.lost {} =
      .committed
        { exampleWonDeal with
          probability := none
          stage := Stage.lost }
        [stageChangedAction Stage.won Stage.lost] := by
  constructor
  · rfl
  · rfl

/-- Reduction of a quote-gate request past the state-machine guards, shared
by the quoting-gate claims. -/
theorem requestTransition_quoteSubmitted_eq (d : Deal) (acts : List DealAction)
    (g : GateAnswers) (hne : Stage.quoteSubmitted ≠ d.stage)
    (hnt : d.stage ≠ Stage.noTender)
    (hcomp : areAllQuoteSubmittedGateQuestionsComplete g = true) :
    requestTransition d acts Stage.quoteSubmitted g =
      match parseFloat (ans g.tender_value), parseFloat (ans g.tender_cost) with
      | some v, some c =>
          if v = 0 then .rejected .invalidQuoteNumbers
          else
            .committed (commitQuoteSubmitted d acts g v c).1
              (commitQuoteSubmitted d acts g v c).2
      | some _, none => .rejected .invalidQuoteNumbers
      | none, _ => .rejected .invalidQuoteNumbers := by
  unfold requestTransition
  rw [if_neg hne, if_neg hnt]
  simp only [hcomp, if_true]

/-- **C4.** A confirmed quoting-gate submission is rejected whenever the
supplied value or cost is non-numeric or the value is 0 (so the division is
never reached); otherwise the deal's four financial fields are overwritten
with exactly `margin = value - cost` and
`margin_percent = (value - cost) / value * 100`, recomputed from value and
cost alone (the pre-typed margin answers do not enter the result). -/
theorem claim_C4_quote_gate_financials :
    ∀ (d : Deal) (acts : List DealAction) (g : GateAnswers),
      Stage.quoteSubmitted ≠ d.stage → d.stage ≠ Stage.noTender →
      areAllQuoteSubmittedGateQuestionsComplete g = true →
      ((parseFloat (ans g.tender_value) = none ∨
        parseFloat (ans g.tender_cost) = none ∨
        parseFloat (ans g.tender_value) = some 0) →
        requestTransition d acts Stage.quoteSubmitted g =
          .rejected .invalidQuoteNumbers) ∧
      (∀ v c, parseFloat (ans g.tender_value) = some v →
        parseFloat (ans g.tender_cost) = some c → v ≠ 0 →
        requestTransition d acts Stage.quoteSubmitted g =
          .committed
            { d with
              stage := Stage.quoteSubmitted
              tender_value := some v
              tender_cost := some c
              tender_margin := some (v - c)
              tender_margin_percent := some ((v - c) / v * 100) }
            (commitQuoteSubmitted d acts g v c).2) := by
  intro d acts g hne hnt hcomp
  rw [requestTransition_quoteSubmitted_eq d acts g hne hnt hcomp]
  constructor
  · intro hbad
    rcases hbad with h | h | h
    · rw [h]
    · rcases hv : parseFloat (ans g.tender_value) with _ | v <;> simp [hv, h]
    · rcases hc : parseFloat (ans g.tender_cost) with _ | c <;> simp [h]
  · intro v c hv hc hvz
    rw [hv, hc]
    simp only [if_neg hvz]
    rfl

/-- The fixture's tender value answer parses to 100. -/
theorem parseFloat_exampleValue :
    parseFloat (ans exampleQuoteAnswers.tender_value) = some 100 := by
  show some ((1 : ℚ) * (((100 : ℕ) : ℚ) + ((0 : ℕ) : ℚ) / (10 : ℚ) ^ (0 : ℕ))) =
    some 100
  norm_num

/-- The fixture's tender cost answer parses to 40. -/
theorem parseFloat_exampleCost :
    parseFloat (ans exampleQuoteAnswers.tender_cost) = some 40 := by
  show some ((1 : ℚ) * (((40 : ℕ) : ℚ) + ((0 : ℕ) : ℚ) / (10 : ℚ) ^ (0 : ℕ))) =
    some 40
  norm_num

/-- Witness for C4: from `In Review` with value 100 and cost 40 the gate
commits and stores margin 60 and margin-percent 60. -/
theorem claim_C4_witness :
    requestTransition exampleInReviewDeal [] Stage.quoteSubmitted exampleQuoteAnswers =
      .committed
        { exampleInReviewDeal with
          stage := Stage.quoteSubmitted
          tender_value := some 100
          tender_cost := some 40
          tender_margin := some (100 - 40)
          tender_margin_percent := some ((100 - 40) / 100 * 100) }
        (commitQuoteSubmitted exampleInReviewDeal [] exampleQuoteAnswers 100 40).2 :=
  (claim_C4_quote_gate_financials exampleInReviewDeal [] exampleQuoteAnswers
    (by decide) (by decide) (by decide)).2 100 40
    parseFloat_exampleValue parseFloat_exampleCost (by decide)

/-- `[] <+: l ++ t` at the `Bool` level, by induction. -/
theorem isPrefixOf_append_self : ∀ (l t : List Char), l.isPrefixOf (l ++ t) = true := by
  intro l t
  induction l with
  | nil => simp [List.isPrefixOf]
  | cons a l ih => simp [List.isPrefixOf, ih]

/-- Every generated quote-gate label starts with the quote-gate name. -/
theorem jsStartsWith_quote_label (s : String) :
    jsStartsWith ("Stage gate: Quote Submitted (v" ++ s ++ ")")
      "Stage gate: Quote Submitted" = true := by
  unfold jsStartsWith
  rw [String.data_append, String.data_append]
  have h : ("Stage gate: Quote Submitted (v").data =
      ("Stage gate: Quote Submitted").data ++ (" (v").data := by decide
  rw [h, List.append_assoc, List.append_assoc]
  exact isPrefixOf_append_self _ _

/-- Appending one quote-gate entry (plus the stage-changed entry) raises
the quote-submission count by exactly one. -/
theorem getQuoteSubmissionCount_after_commit (s t : Stage)
    (acts : List DealAction) (g : GateAnswers) (v c : ℚ) :
    getQuoteSubmissionCount
      (stageChangedAction s t :: quoteGateAction acts g v c :: acts) =
      getQuoteSubmissionCount acts + 1 := by
  have h1 : jsStartsWith "Stage changed" "Stage gate: Quote Submitted" = false := by
    decide
  unfold getQuoteSubmissionCount
  simp only [stageChangedAction, quoteGateAction, List.filter_cons]
  simp [h1, jsStartsWith_quote_label]

/-- **C5.** A committed quoting gate appends an audit entry labelled
`Stage gate: Quote Submitted (vN)` with `N` equal to 1 plus the number of
existing entries whose label starts with `Stage gate: Quote Submitted`, and
the new entry itself matches that prefix — so a second submission for the
same deal is labelled `v2` after a first labelled `v1`. -/
theorem claim_C5_quote_version_label :
    ∀ (d : Deal) (acts : List DealAction) (g : GateAnswers) (v c : ℚ),
      Stage.quoteSubmitted ≠ d.stage → d.stage ≠ Stage.noTender →
      areAllQuoteSubmittedGateQuestionsComplete g = true →
      parseFloat (ans g.tender_value) = some v →
      parseFloat (ans g.tender_cost) = some c → v ≠ 0 →
      requestTransition d acts Stage.quoteSubmitted g =
        .committed (commitQuoteSubmitted d acts g v c).1
          (stageChangedAction d.stage Stage.quoteSubmitted ::
            quoteGateAction acts g v c :: acts) ∧
      (quoteGateAction acts g v c).action_type =
        some ("Stage gate: Quote Submitted (v" ++
          toString (getQuoteSubmissionCount acts + 1) ++ ")") ∧
      getQuoteSubmissionCount
        (stageChangedAction d.stage Stage.quoteSubmitted ::
          quoteGateAction acts g v c :: acts) =
        getQuoteSubmissionCount acts + 1 := by
  intro d acts g v c hne hnt hcomp hv hc hvz
  refine ⟨?_, rfl, getQuoteSubmissionCount_after_commit _ _ _ _ _ _⟩
  rw [requestTransition_quoteSubmitted_eq d acts g hne hnt hcomp, hv, hc]
  simp only [if_neg hvz]
  rfl

/-- Witness for C5: the very first quote submission is counted as `v1`. -/
theorem claim_C5_witness :
    getQuoteSubmissionCount
      (stageChangedAction exampleInReviewDeal.stage Stage.quoteSubmitted ::
        quoteGateAction [] exampleQuoteAnswers 100 40 :: []) =
      getQuoteSubmissionCount [] + 1 :=
  (claim_C5_quote_version_label exampleInReviewDeal [] exampleQuoteAnswers 100 40
    (by decide) (by decide) (by decide)
    parseFloat_exampleValue parseFloat_exampleCost (by decide)).2.2

end StageGateClaims

section DashboardClaims

open Dashboard

/-- **C9.** The financial-year label is the date's calendar year for
January–November and the following year for December; in particular the
financial-year summary puts a deal enquired 2024-12-15 and one enquired
2025-11-30 into FY2025, and one enquired 2025-12-01 into FY2026. -/
theorem claim_C9_financial_year_label :
    ∀ (d : Ymd), 1 ≤ d.month → d.month ≤ 12 →
      getFinancialYearEnd d = (if d.month = 12 then d.year + 1 else d.year) ∧
      (fyTenderSummary [exampleFyDealDec2024]).map (fun r => r.fyEndYear) = [2025] ∧
      (fyTenderSummary [exampleFyDealNov2025]).map (fun r => r.fyEndYear) = [2025] ∧
      (fyTenderSummary [exampleFyDealDec2025]).map (fun r => r.fyEndYear) = [2026] := by
  intro d h1 h2
  refine ⟨?_, by decide, by decide, by decide⟩
  unfold getFinancialYearEnd Ymd.getMonth Ymd.getFullYear
  split_ifs <;> omega

/-- Witness for C9 at the date 2024-12-15. -/
theorem claim_C9_witness :
    getFinancialYearEnd ⟨2024, 12, 15⟩ =
      (if (12 : Nat) = 12 then (2024 : Int) + 1 else 2024) :=
  (claim_C9_financial_year_label ⟨2024, 12, 15⟩ (by decide) (by decide)).1

/-- The probability table yields one of its four entries or nothing. -/
theorem PROB_WEIGHTS_cases (p : String) :
    PROB_WEIGHTS p = none ∨ PROB_WEIGHTS p = some (3/4) ∨
    PROB_WEIGHTS p = some (1/2) ∨ PROB_WEIGHTS p = some (1/4) ∨
    PROB_WEIGHTS p = some (1/10) := by
  unfold PROB_WEIGHTS
  split_ifs <;> simp

/-- `getDealWeight` only ever produces one of six constants. -/
theorem getDealWeight_cases (d : Deal) :
    getDealWeight d = 1 ∨ getDealWeight d = 0 ∨ getDealWeight d = 3/4 ∨
    getDealWeight d = 1/2 ∨ getDealWeight d = 1/4 ∨ getDealWeight d = 1/10 := by
  simp only [getDealWeight]
  split_ifs
  · tauto
  · tauto
  · rcases hd : d.probability with _ | p
    · simp [hd]
    · rcases PROB_WEIGHTS_cases p with h | h | h | h | h <;> simp [hd, h]

/-- **C6.** The weighting function is total and bounded in `[0,1]`:
`Won` → 1 and `Lost`/`No Tender` → 0 regardless of probability; otherwise
the probability bucket decides (A→0.75, B→0.5, C→0.25, D→0.1), with 0 for
an absent or unrecognized bucket. -/
theorem claim_C6_weight_total_bounded :
    ∀ (d : Deal),
      (0 ≤ getDealWeight d ∧ getDealWeight d ≤ 1) ∧
      (jsToLower (d.stage.getD "") = "won" → getDealWeight d = 1) ∧
      ((jsToLower (d.stage.getD "") = "lost" ∨
        jsToLower (d.stage.getD "") = "no tender") → getDealWeight d = 0) ∧
      (jsToLower (d.stage.getD "") ≠ "won" →
       jsToLower (d.stage.getD "") ≠ "lost" →
       jsToLower (d.stage.getD "") ≠ "no tender" →
        ((d.probability = some "A" → getDealWeight d = 3/4) ∧
         (d.probability = some "B" → getDealWeight d = 1/2) ∧
         (d.probability = some "C" → getDealWeight d = 1/4) ∧
         (d.probability = some "D" → getDealWeight d = 1/10) ∧
         (d.probability = none → getDealWeight d = 0) ∧
         (∀ p, d.probability = some p →
            p ≠ "A" → p ≠ "B" → p ≠ "C" → p ≠ "D" → getDealWeight d = 0))) := by
  intro d
  refine ⟨?_, ?_, ?_, ?_⟩
  · rcases getDealWeight_cases d with h | h | h | h | h | h <;> rw [h] <;> norm_num
  · intro h
    simp [getDealWeight, h]
  · intro h
    rcases h with h | h <;> simp [getDealWeight, h]
  · intro h1 h2 h3
    refine ⟨?_, ?_, ?_, ?_, ?_, ?_⟩
    · intro hp
      simp [getDealWeight, h1, h2, h3, hp, PROB_WEIGHTS]
    · intro hp
      simp [getDealWeight, h1, h2, h3, hp, PROB_WEIGHTS]
    · intro hp
      simp [getDealWeight, h1, h2, h3, hp, PROB_WEIGHTS]
    · intro hp
      simp [getDealWeight, h1, h2, h3, hp, PROB_WEIGHTS]
    · intro hp
      simp [getDealWeight, h1, h2, h3, hp]
    · intro p hp hA hB hC hD
      simp [getDealWeight, h1, h2, h3, hp, PROB_WEIGHTS, hA, hB, hC, hD]

/-- Witness for C6: the bucket-C weight of an active deal. -/
theorem claim_C6_witness :
    0 ≤ getDealWeight exampleActiveDeal ∧ getDealWeight exampleActiveDeal ≤ 1 :=
  (claim_C6_weight_total_bounded exampleActiveDeal).1

/-- The pairwise comparison, characterised by the tie-break cascade. -/
theorem chooseBestDealForAp_eq (a b : Deal) :
    chooseBestDealForAp a b = if strictlyBetter b a then b else a := by
  simp only [chooseBestDealForAp]
  by_cases h1 : stagePriority a.stage = stagePriority b.stage
  · rw [if_neg (not_not_intro h1)]
    by_cases h2 : getDealWeight a = getDealWeight b
    · rw [if_neg (not_not_intro h2)]
      by_cases h3 : toNumber a.tender_value = toNumber b.tender_value
      · rw [if_neg (not_not_intro h3)]
        by_cases h4 : dealTime a ≥ dealTime b
        · rw [if_pos h4, if_neg]
          intro hsb
          unfold strictlyBetter at hsb
          rcases hsb with h | ⟨-, h | ⟨-, h | ⟨-, h⟩⟩⟩
          · omega
          · exact absurd h (by rw [h2]; exact lt_irrefl _)
          · exact absurd h (by rw [h3]; exact lt_irrefl _)
          · omega
        · rw [if_neg h4, if_pos]
          exact Or.inr ⟨h1, Or.inr ⟨h2, Or.inr ⟨h3, by omega⟩⟩⟩
      · rw [if_pos h3]
        by_cases h5 : toNumber a.tender_value > toNumber b.tender_value
        · rw [if_pos h5, if_neg]
          intro hsb
          unfold strictlyBetter at hsb
          rcases hsb with h | ⟨-, h | ⟨-, h | ⟨h, -⟩⟩⟩
          · omega
          · exact absurd h (by rw [h2]; exact lt_irrefl _)
          · linarith
          · exact h3 h
        · rw [if_neg h5, if_pos]
          exact Or.inr ⟨h1, Or.inr ⟨h2, Or.inl
            (lt_of_le_of_ne (le_of_not_lt h5) h3)⟩⟩
    · rw [if_pos h2]
      by_cases h5 : getDealWeight a > getDealWeight b
      · rw [if_pos h5, if_neg]
        intro hsb
        unfold strictlyBetter at hsb
        rcases hsb with h | ⟨-, h | ⟨h, -⟩⟩
        · omega
        · linarith
        · exact h2 h
      · rw [if_neg h5, if_pos]
        exact Or.inr ⟨h1, Or.inl (lt_of_le_of_ne (le_of_not_lt h5) h2)⟩
  · rw [if_pos h1]
    by_cases h2 : stagePriority a.stage > stagePriority b.stage
    · rw [if_pos h2, if_neg]
      intro hsb
      unfold strictlyBetter at hsb
      rcases hsb with h | ⟨he, -⟩
      · omega
      · exact h1 he
    · rw [if_neg h2, if_pos]
      refine Or.inl ?_
      omega

/-- **C7.** `chooseBestDealForAp` returns whichever argument wins on the
first criterion that differs — stage rank, then forecast weight, then
tender value (null as 0), then more recent enquiry time — and retains the
first argument when every criterion ties. -/
theorem claim_C7_tie_break_order :
    ∀ (a b : Deal), chooseBestDealForAp a b =
      if strictlyBetter b a then b else a :=
  chooseBestDealForAp_eq

/-- Witness for C7: a fully tied pair retains the first argument. -/
theorem claim_C7_witness :
    chooseBestDealForAp exampleDealA exampleDealB =
      if strictlyBetter exampleDealB exampleDealA then exampleDealB
      else exampleDealA :=
  claim_C7_tie_break_order exampleDealA exampleDealB

/-- A deal the pipeline/forecast loops skip before accumulating anything:
absent or unparseable estimated start date, or stage Lost / No Tender. -/
theorem forecastStep_skip (fromIdx toIdx : Option Int) (ex : Bool)
    (today : Int) (targets : String → ℚ) (m : List (String × ForecastBucket))
    (d : Deal)
    (h : d.estimated_start_date = none ∨ d.estimated_start_date = some none ∨
      jsToLower (d.stage.getD "") = "lost" ∨
      jsToLower (d.stage.getD "") = "no tender") :
    forecastStep fromIdx toIdx ex today targets m d = m := by
  rcases h with h | h | h | h
  · simp [forecastStep, h]
  · simp [forecastStep, h]
  · rcases hd : d.estimated_start_date with _ | dd
    · simp [forecastStep, hd]
    · rcases dd with _ | dt
      · simp [forecastStep, hd]
      · simp [forecastStep, hd, h]
  · rcases hd : d.estimated_start_date with _ | dd
    · simp [forecastStep, hd]
    · rcases dd with _ | dt
      · simp [forecastStep, hd]
      · simp [forecastStep, hd, h]

/-- Same for the dashboard's pipeline chart loop. -/
theorem pipelineStep_skip (m : List (String × PipelineBucket)) (d : Deal)
    (h : d.estimated_start_date = none ∨ d.estimated_start_date = some none ∨
      jsToLower (d.stage.getD "") = "lost" ∨
      jsToLower (d.stage.getD "") = "no tender") :
    pipelineStep m d = m := by
  rcases h with h | h | h | h
  · simp [pipelineStep, h]
  · simp [pipelineStep, h]
  · rcases hd : d.estimated_start_date with _ | dd
    · simp [pipelineStep, hd]
    · rcases dd with _ | dt
      · simp [pipelineStep, hd]
      · simp [pipelineStep, hd, h]
  · rcases hd : d.estimated_start_date with _ | dd
    · simp [pipelineStep, hd]
    · rcases dd with _ | dt
      · simp [pipelineStep, hd]
      · simp [pipelineStep, hd, h]

/-- **C10.** In the forecast report (and the dashboard pipeline chart),
a deal whose stage is Lost or No Tender, or whose estimated start date is
absent or unparseable, contributes nothing at all: removing it from the
input leaves every month bucket's total, expected and won sums (and the
pipeline series) unchanged. -/
theorem claim_C10_forecast_skips_lost_and_dateless :
    ∀ (fromIdx toIdx : Option Int) (ex : Bool) (today : Int)
      (targets : String → ℚ) (l₁ l₂ : List Deal) (d : Deal),
      (d.estimated_start_date = none ∨ d.estimated_start_date = some none ∨
       jsToLower (d.stage.getD "") = "lost" ∨
       jsToLower (d.stage.getD "") = "no tender") →
      forecastBuckets fromIdx toIdx ex today targets (l₁ ++ d :: l₂) =
        forecastBuckets fromIdx toIdx ex today targets (l₁ ++ l₂) ∧
      pipelineBuckets (l₁ ++ d :: l₂) = pipelineBuckets (l₁ ++ l₂) := by
  intro fromIdx toIdx ex today targets l₁ l₂ d h
  constructor
  · unfold forecastBuckets
    rw [List.foldl_append, List.foldl_append, List.foldl_cons,
      forecastStep_skip fromIdx toIdx ex today targets _ d h]
  · unfold pipelineBuckets
    rw [List.foldl_append, List.foldl_append, List.foldl_cons,
      pipelineStep_skip _ d h]

/-- Witness for C10: dropping a Lost deal changes neither report. -/
theorem claim_C10_witness :
    forecastBuckets none none false 0 (fun _ => 0)
        ([] ++ exampleLostDeal :: [exampleActiveDeal]) =
      forecastBuckets none none false 0 (fun _ => 0) ([] ++ [exampleActiveDeal]) ∧
    pipelineBuckets ([] ++ exampleLostDeal :: [exampleActiveDeal]) =
      pipelineBuckets ([] ++ [exampleActiveDeal]) :=
  claim_C10_forecast_skips_lost_and_dateless none none false 0 (fun _ => 0)
    [] [exampleActiveDeal] exampleLostDeal (by decide)

/-- `rank` orders deals exactly as the tie-break cascade does. -/
theorem rank_lt_iff (a b : Deal) : rank a < rank b ↔ strictlyBetter b a := by
  unfold rank strictlyBetter
  simp only [Prod.Lex.lt_iff]

/-- `chooseBestDealForAp` keeps the argument of maximal `rank`, preferring
the first on ties. -/
theorem chooseBest_eq_rank (a b : Deal) :
    chooseBestDealForAp a b = if rank a < rank b then b else a := by
  rw [chooseBestDealForAp_eq]
  exact if_congr (rank_lt_iff a b).symm rfl rfl

theorem choose_or (x d : Deal) :
    chooseBestDealForAp x d = x ∨ chooseBestDealForAp x d = d := by
  rw [chooseBest_eq_rank]
  split_ifs <;> simp

theorem rank_le_choose_left (x d : Deal) :
    rank x ≤ rank (chooseBestDealForAp x d) := by
  rw [chooseBest_eq_rank]
  split_ifs with h
  · exact le_of_lt h
  · exact le_refl _

theorem rank_le_choose_right (x d : Deal) :
    rank d ≤ rank (chooseBestDealForAp x d) := by
  rw [chooseBest_eq_rank]
  split_ifs with h
  · exact le_refl _
  · exact le_of_not_lt h

/-- The left fold of the comparison stays inside the group. -/
theorem foldl_choose_mem (l : List Deal) (x : Deal) :
    l.foldl chooseBestDealForAp x ∈ x :: l := by
  induction l generalizing x with
  | nil => simp
  | cons d l ih =>
    simp only [List.foldl_cons]
    rcases choose_or x d with hc | hc <;> rw [hc]
    · rcases List.mem_cons.mp (ih x) with h' | h'
      · rw [h']
        exact List.mem_cons_self _ _
      · exact List.mem_cons_of_mem _ (List.mem_cons_of_mem _ h')
    · rcases List.mem_cons.mp (ih d) with h' | h'
      · rw [h']
        exact List.mem_cons_of_mem _ (List.mem_cons_self _ _)
      · exact List.mem_cons_of_mem _ (List.mem_cons_of_mem _ h')

/-- The left fold of the comparison dominates every group member in rank. -/
theorem foldl_choose_max (l : List Deal) (x : Deal) :
    ∀ y ∈ x :: l, rank y ≤ rank (l.foldl chooseBestDealForAp x) := by
  induction l generalizing x with
  | nil =>
    intro y hy
    simp only [List.foldl_nil]
    rcases List.mem_cons.mp hy with h | h
    · rw [h]
    · simp at h
  | cons d l ih =>
    intro y hy
    simp only [List.foldl_cons]
    rcases List.mem_cons.mp hy with h' | h'
    · rw [h']
      exact le_trans (rank_le_choose_left x d)
        (ih (chooseBestDealForAp x d) _ (List.mem_cons_self _ _))
    · rcases List.mem_cons.mp h' with h'' | h''
      · rw [h'']
        exact le_trans (rank_le_choose_right x d)
          (ih (chooseBestDealForAp x d) _ (List.mem_cons_self _ _))
      · exact ih (chooseBestDealForAp x d) y (List.mem_cons_of_mem _ h'')

theorem mapGet_mapSet {α β : Type} [DecidableEq α] (m : List (α × β))
    (k : α) (v : β) (k' : α) :
    mapGet (mapSet m k v) k' = if k = k' then some v else mapGet m k' := by
  induction m with
  | nil => simp [mapGet, mapSet]
  | cons p rest ih =>
    obtain ⟨k₀, v₀⟩ := p
    unfold mapSet
    by_cases h : k₀ = k
    · subst h
      simp only [if_pos rfl]
      by_cases h' : k₀ = k' <;> simp [mapGet, h']
    · simp only [if_neg h]
      by_cases h' : k₀ = k'
      · subst h'
        simp [mapGet, ih, Ne.symm h]
      · simp [mapGet, h', ih]

theorem mapGet_some_mem_keys {α β : Type} [DecidableEq α] (m : List (α × β))
    (k : α) (v : β) (h : mapGet m k = some v) : k ∈ keysOf m := by
  induction m with
  | nil => simp [mapGet] at h
  | cons p rest ih =>
    obtain ⟨k₀, v₀⟩ := p
    unfold mapGet at h
    by_cases hk : k₀ = k
    · simp [keysOf, hk]
    · simp only [if_neg hk] at h
      simp [keysOf]
      right
      simpa [keysOf] using ih h

theorem mem_values_iff {α β : Type} [DecidableEq α] (m : List (α × β))
    (hnd : (keysOf m).Nodup) (v : β) :
    v ∈ m.map Prod.snd ↔ ∃ k, mapGet m k = some v := by
  induction m with
  | nil => simp [mapGet]
  | cons p rest ih =>
    obtain ⟨k₀, v₀⟩ := p
    have hnd' : (keysOf rest).Nodup := (List.nodup_cons.mp hnd).2
    have hout : k₀ ∉ keysOf rest := (List.nodup_cons.mp hnd).1
    constructor
    · intro hv
      rcases List.mem_cons.mp hv with h | h
      · exact ⟨k₀, by simp [mapGet, h]⟩
      · obtain ⟨k, hk⟩ := (ih hnd').mp h
        refine ⟨k, ?_⟩
        have hne : k₀ ≠ k := fun he => hout (he ▸ mapGet_some_mem_keys rest k v hk)
        simp [mapGet, hne, hk]
    · rintro ⟨k, hk⟩
      unfold mapGet at hk
      by_cases hke : k₀ = k
      · simp only [if_pos hke] at hk
        injection hk with hk
        simp [hk]
      · simp only [if_neg hke] at hk
        exact List.mem_cons_of_mem _ ((ih hnd').mpr ⟨k, hk⟩)

theorem keysOf_cons {α β : Type} (p : α × β) (m : List (α × β)) :
    keysOf (p :: m) = p.1 :: keysOf m := rfl

theorem keysOf_mapSet {α β : Type} [DecidableEq α] (m : List (α × β))
    (k : α) (v : β) :
    keysOf (mapSet m k v) =
      if k ∈ keysOf m then keysOf m else keysOf m ++ [k] := by
  induction m with
  | nil => simp [mapSet, keysOf]
  | cons p rest ih =>
    obtain ⟨k₀, v₀⟩ := p
    unfold mapSet
    by_cases h : k₀ = k
    · subst h
      simp [keysOf]
    · simp only [if_neg h]
      by_cases hm : k ∈ keysOf rest
      · rw [keysOf_cons, keysOf_cons, ih, if_pos hm,
          if_pos (List.mem_cons_of_mem _ hm)]
      · have hnot : ¬ k ∈ ((k₀, v₀).1 :: keysOf rest) := by
          intro hc
          rcases List.mem_cons.mp hc with hc | hc
          · exact h hc.symm
          · exact hm hc
        rw [keysOf_cons, keysOf_cons, ih, if_neg hm, if_neg hnot]
        simp

theorem nodup_keys_foldl_aux :
    ∀ (l : List Deal) (m : List (String × Deal)),
      (keysOf m).Nodup → (keysOf (l.foldl collapseStep m)).Nodup := by
  intro l
  induction l with
  | nil => intro m h; exact h
  | cons d l ih =>
    intro m h
    simp only [List.foldl_cons]
    apply ih
    have hset : ∀ w, (keysOf (mapSet m (dealKey d) w)).Nodup := by
      intro w
      rw [keysOf_mapSet]
      split_ifs with hm
      · exact h
      · simp [List.nodup_append, h, hm]
    unfold collapseStep
    rcases hg : mapGet m (dealKey d) with _ | e <;> simp only [hg] <;> exact hset _

/-- The accumulated map assigns each key the left fold of its group. -/
theorem foldl_collapseStep_spec (l : List Deal) :
    ∀ k, mapGet (l.foldl collapseStep []) k = reduceGroup (groupOf l k) := by
  induction l using List.reverseRecOn with
  | nil => intro k; simp [mapGet, groupOf, reduceGroup]
  | append_singleton l d ih =>
    intro k
    simp only [List.foldl_append, List.foldl_cons, List.foldl_nil]
    have hgrp : groupOf (l ++ [d]) k =
        groupOf l k ++ (if (dealKey d == k) = true then [d] else []) := by
      unfold groupOf
      rw [List.filter_append]
      congr 1
      rcases hb : (dealKey d == k) with _ | _ <;> simp [List.filter_cons, hb]
    by_cases hk : dealKey d = k
    · subst hk
      rw [collapseStep]
      rcases hg : mapGet (l.foldl collapseStep []) (dealKey d) with _ | e
      · have hempty : groupOf l (dealKey d) = [] := by
          have hh := ih (dealKey d)
          rw [hg] at hh
          rcases hgl : groupOf l (dealKey d) with _ | ⟨h₀, t⟩
          · rfl
          · rw [hgl] at hh
            simp [reduceGroup] at hh
        simp only [hg]
        rw [mapGet_mapSet, if_pos rfl, hgrp, hempty]
        simp [reduceGroup]
      · obtain ⟨h₀, t, hgl⟩ : ∃ h₀ t, groupOf l (dealKey d) = h₀ :: t := by
          have hh := ih (dealKey d)
          rw [hg] at hh
          rcases hgl : groupOf l (dealKey d) with _ | ⟨h₀, t⟩
          · rw [hgl] at hh
            simp [reduceGroup] at hh
          · exact ⟨_, _, rfl⟩
        have he : e = t.foldl chooseBestDealForAp h₀ := by
          have hh := ih (dealKey d)
          rw [hg, hgl] at hh
          simp only [reduceGroup] at hh
          injection hh
        simp only [hg]
        rw [mapGet_mapSet, if_pos rfl, hgrp, hgl]
        simp [reduceGroup, List.foldl_append, he]
    · have hne : (dealKey d == k) = false := by simp [hk]
      rw [collapseStep]
      rcases hg : mapGet (l.foldl collapseStep []) (dealKey d) with _ | e <;>
        simp only [hg] <;>
        rw [mapGet_mapSet, if_neg hk, hgrp, hne] <;>
        simp [ih k]

/-- Membership in the collapsed output, characterised group by group. -/
theorem mem_collapse_iff (l : List Deal) (v : Deal) :
    v ∈ collapseDealsByAp l ↔ ∃ k, reduceGroup (groupOf l k) = some v := by
  unfold collapseDealsByAp
  rw [mem_values_iff _ (nodup_keys_foldl_aux l [] (by simp [keysOf]))]
  constructor <;> rintro ⟨k, hk⟩ <;> refine ⟨k, ?_⟩
  · rw [← foldl_collapseStep_spec l k]
    exact hk
  · rw [foldl_collapseStep_spec l k]
    exact hk

/-- Group reduction is permutation-invariant when distinct members never
tie in rank. -/
theorem reduceGroup_perm (g g' : List Deal) (hp : g.Perm g')
    (hinj : ∀ a ∈ g, ∀ b ∈ g, rank a = rank b → a = b) :
    reduceGroup g = reduceGroup g' := by
  rcases g with _ | ⟨x, t⟩
  · rw [hp.nil_eq]
  · rcases hg' : g' with _ | ⟨x', t'⟩
    · rw [hg'] at hp
      exact absurd hp.symm.nil_eq (by simp)
    · rw [hg'] at hp
      have hr : t.foldl chooseBestDealForAp x ∈ x :: t := foldl_choose_mem t x
      have hr' : t'.foldl chooseBestDealForAp x' ∈ x :: t :=
        hp.mem_iff.mpr (foldl_choose_mem t' x')
      have h1 : rank (t'.foldl chooseBestDealForAp x') ≤
          rank (t.foldl chooseBestDealForAp x) :=
        foldl_choose_max t x _ hr'
      have h2 : rank (t.foldl chooseBestDealForAp x) ≤
          rank (t'.foldl chooseBestDealForAp x') :=
        foldl_choose_max t' x' _ (hp.mem_iff.mp hr)
      have heq := hinj _ hr _ hr' (le_antisymm h2 h1)
      simp [reduceGroup, heq]

/-- Equal ranks force equal components. -/
theorem rank_eq_components {a b : Deal} (h : rank a = rank b) :
    stagePriority a.stage = stagePriority b.stage ∧
    getDealWeight a = getDealWeight b ∧
    toNumber a.tender_value = toNumber b.tender_value ∧
    dealTime a = dealTime b := by
  unfold rank at h
  have h0 := congrArg ofLex h
  simp only [ofLex_toLex] at h0
  obtain ⟨e1, h1⟩ := Prod.ext_iff.mp h0
  have h1' := congrArg ofLex h1
  simp only [ofLex_toLex] at h1'
  obtain ⟨e2, h2⟩ := Prod.ext_iff.mp h1'
  have h2' := congrArg ofLex h2
  simp only [ofLex_toLex] at h2'
  obtain ⟨e3, e4⟩ := Prod.ext_iff.mp h2'
  exact ⟨e1, e2, e3, e4⟩

/-- **C8 (amended).** `collapse` is order-independent provided no two
distinct deals of the same project-key group tie on all four comparison
criteria: for any permutation of the input, the output has exactly the same
members.  (Without that proviso the first-encountered deal of a fully tied
pair wins, so order can matter — see the counterexample.) -/
theorem claim_C8_collapse_order_independent :
    ∀ (l l' : List Deal), l.Perm l' →
      (∀ a ∈ l, ∀ b ∈ l, dealKey a = dealKey b →
        stagePriority a.stage = stagePriority b.stage →
        getDealWeight a = getDealWeight b →
        toNumber a.tender_value = toNumber b.tender_value →
        dealTime a = dealTime b → a = b) →
      ∀ v, v ∈ collapseDealsByAp l ↔ v ∈ collapseDealsByAp l' := by
  intro l l' hp hinj v
  rw [mem_collapse_iff, mem_collapse_iff]
  have hred : ∀ k, reduceGroup (groupOf l k) = reduceGroup (groupOf l' k) := by
    intro k
    apply reduceGroup_perm _ _ (hp.filter _)
    intro a ha b hb hr
    have ha' := List.mem_filter.mp ha
    have hb' := List.mem_filter.mp hb
    have hka : dealKey a = k := by simpa using ha'.2
    have hkb : dealKey b = k := by simpa using hb'.2
    obtain ⟨e1, e2, e3, e4⟩ := rank_eq_components hr
    exact hinj a ha'.1 b hb'.1 (hka.trans hkb.symm) e1 e2 e3 e4
  constructor <;> rintro ⟨k, hk⟩ <;> exact ⟨k, by rw [hred k] at *; exact hk⟩

/-- Witness for C8 as amended: two singleton-group deals commute. -/
theorem claim_C8_witness :
    exampleDealA ∈ collapseDealsByAp [exampleDealA, exampleFyDealDec2024] ↔
      exampleDealA ∈ collapseDealsByAp [exampleFyDealDec2024, exampleDealA] :=
  claim_C8_collapse_order_independent _ _
    (List.Perm.swap exampleFyDealDec2024 exampleDealA [])
    (by decide) exampleDealA

/-- **C8 counterexample.** Two distinct deals sharing AP number 7 and tying
on stage, weight, value and enquiry date: the collapse keeps whichever the
loop meets first, so permuting the input changes the output set. -/
theorem claim_C8_counterexample :
    ([exampleDealA, exampleDealB].Perm [exampleDealB, exampleDealA]) ∧
    collapseDealsByAp [exampleDealA, exampleDealB] = [exampleDealA] ∧
    collapseDealsByAp [exampleDealB, exampleDealA] = [exampleDealB] ∧
    exampleDealA ≠ exampleDealB := by
  refine ⟨List.Perm.swap exampleDealB exampleDealA [], ?_, ?_, by decide⟩
  · rfl
  · rfl

end DashboardClaims

end CRM
